import Mathlib

/-!
Verification development for the slideshow-to-video renderer
(`src/app/page.tsx`).  The embedding below mirrors the three parts of the
source that carry the algorithmic content:

* the timeline scheduler inside `renderFrame` (indices, time-in-image,
  transition progress, the end-of-timeline finalize test);
* the pixel-level compositor: clear-to-black, `drawImageCover`, and the
  `fade` / `slide` / `zoom` branches, modelled over an idealized canvas
  `ℚ → ℚ → ℚ` with source-over blending under `globalAlpha`;
* the MediaRecorder session handlers (`ondataavailable`, `onstop`) as a
  small event-driven state machine.

Times are in integer milliseconds (`Date.now()` granularity); progress and
pixel arithmetic use `ℚ`.
-/

/-- `imageDuration = duration * 1000` (line 91 of the source; `duration` is
the per-image time in seconds). -/
def imageDuration (dur : ℕ) : ℕ := dur * 1000

/-- `totalDuration = images.length * duration * 1000` (line 88). -/
def totalDuration (n dur : ℕ) : ℕ := n * dur * 1000

/-- `transitionDuration = 500` (line 92). -/
def transitionDuration : ℕ := 500

/-- `currentIndex = Math.floor(currentTime / imageDuration)` (line 118). -/
def currentIndexOf (d t : ℕ) : ℕ := t / d

/-- `nextIndex = (currentIndex + 1) % images.length` (line 119). -/
def nextIndexOf (n d t : ℕ) : ℕ := (currentIndexOf d t + 1) % n

/-- `timeInCurrentImage = currentTime % imageDuration` (line 120). -/
def timeInCurrentImage (d t : ℕ) : ℕ := t % d

/-- `transitionProgress = (timeInCurrentImage - (imageDuration -
transitionDuration)) / transitionDuration` (line 131), computed in exact
rational arithmetic; the subtraction is signed, as in the source. -/
def transitionProgress (d td t : ℕ) : ℚ :=
  ((timeInCurrentImage d t : ℚ) - ((d : ℚ) - (td : ℚ))) / (td : ℚ)

/-- What a single rendered tick does with the pictures: either a pure draw
of the current picture (no blending) or a call into the transition
compositing branch with a progress value. -/
inductive FrameAction where
  | pureDraw (currentIndex : ℕ)
  | transitionDraw (currentIndex nextIndex : ℕ) (progress : ℚ)
deriving DecidableEq

/-- The per-tick decision of `renderFrame` once the end-of-timeline test has
passed (lines 118-131): branch on
`timeInCurrentImage < imageDuration - transitionDuration`. -/
def renderFrameAction (n d td t : ℕ) : FrameAction :=
  if (timeInCurrentImage d t : ℚ) < (d : ℚ) - (td : ℚ) then
    .pureDraw (currentIndexOf d t)
  else
    .transitionDraw (currentIndexOf d t) (nextIndexOf n d t)
      (transitionProgress d td t)

/-- Result of one scheduled tick of `renderFrame` (lines 110-164): either
the finalize path (`mediaRecorder.stop(); return`) or a rendered frame
followed by `setTimeout(renderFrame, frameDuration)`. -/
inductive TickResult where
  | finalize
  | frame (act : FrameAction)
deriving DecidableEq

/-- One tick of `renderFrame`: sample the elapsed time `t`; if
`t >= totalDuration` stop the recorder and return, otherwise render and
reschedule (lines 111-116). -/
def tick (n dur td t : ℕ) : TickResult :=
  if totalDuration n dur ≤ t then .finalize
  else .frame (renderFrameAction n (imageDuration dur) td t)

/-- Run the recursive tick loop over the successive sampled elapsed times.
Returns the emitted frame actions and the number of times
`mediaRecorder.stop()` was sent; a finalize ends the loop (the source
returns without rescheduling). -/
def runTicks (n dur td : ℕ) : List ℕ → List FrameAction × ℕ
  | [] => ([], 0)
  | t :: ts =>
    match tick n dur td t with
    | .finalize => ([], 1)
    | .frame a =>
      let r := runTicks n dur td ts
      (a :: r.1, r.2)

/-! ## Pixel model: canvas, cover-fit, and the transition compositor -/

/-- A decoded picture: pixel dimensions and an (opaque) color field sampled
at rational coordinates. -/
structure Picture where
  w : ℚ
  h : ℚ
  color : ℚ → ℚ → ℚ

/-- The output canvas in device coordinates. -/
def Canvas : Type := ℚ → ℚ → ℚ

/-- The cover-fit rectangle computed by `drawImageCover` (lines 175-190). -/
structure CoverRect where
  drawWidth : ℚ
  drawHeight : ℚ
  offsetX : ℚ
  offsetY : ℚ
deriving DecidableEq

/-- The rectangle arithmetic of `drawImageCover`: compare
`imgRatio = img.width / img.height` with `canvasRatio = canvasWidth /
canvasHeight` and scale to the covering side, centering on the other. -/
def drawImageCoverRect (pw ph cw ch : ℚ) : CoverRect :=
  if cw / ch < pw / ph then
    { drawHeight := ch
      drawWidth := pw * (ch / ph)
      offsetX := (cw - pw * (ch / ph)) / 2
      offsetY := 0 }
  else
    { drawWidth := cw
      drawHeight := ph * (cw / pw)
      offsetX := 0
      offsetY := (ch - ph * (cw / pw)) / 2 }

/-- `ctx.drawImage(img, ox, oy, dw, dh)` under the active transform and
`globalAlpha`.  The transform is a uniform scale `s` followed by a
translation `(tx, ty)` (the only transforms the source composes); a device
point `(x, y)` pulls back to user point `((x - tx) / s, (y - ty) / s)`, and
points inside the destination rectangle are source-over blended with
opacity `a`. -/
def drawImageAt (img : Picture) (ox oy dw dh s tx ty a : ℚ) (c : Canvas) :
    Canvas := fun x y =>
  if ox ≤ (x - tx) / s ∧ (x - tx) / s < ox + dw ∧
      oy ≤ (y - ty) / s ∧ (y - ty) / s < oy + dh then
    a * img.color (((x - tx) / s - ox) * img.w / dw)
        (((y - ty) / s - oy) * img.h / dh)
      + (1 - a) * c x y
  else c x y

/-- `drawImageCover(ctx, img, canvasWidth, canvasHeight)` (lines 169-193)
under the active transform and `globalAlpha`. -/
def drawImageCover (img : Picture) (cw ch s tx ty a : ℚ) (c : Canvas) :
    Canvas :=
  let r := drawImageCoverRect img.w img.h cw ch
  drawImageAt img r.offsetX r.offsetY r.drawWidth r.drawHeight s tx ty a c

/-- `ctx.fillStyle = '#000'; ctx.fillRect(0, 0, canvas.width,
canvas.height)` (lines 122-123). -/
def clearBlack (cw ch : ℚ) (c : Canvas) : Canvas := fun x y =>
  if 0 ≤ x ∧ x < cw ∧ 0 ≤ y ∧ y < ch then 0 else c x y

/-- The transition branch of `renderFrame` (lines 133-160): dispatch on the
`transition` string; `fade` blends the next picture over the current one
with `globalAlpha = progress`; `slide` translates both; `zoom` scales the
current picture about the frame center with fading opacity and blends the
next over it.  An unrecognized style draws nothing. -/
def compositeFrame (style : String) (cur next : Picture) (p cw ch : ℚ)
    (c : Canvas) : Canvas :=
  if style = "fade" then
    drawImageCover next cw ch 1 0 0 p (drawImageCover cur cw ch 1 0 0 1 c)
  else if style = "slide" then
    let off := cw * p
    drawImageCover next cw ch 1 (cw - off) 0 1
      (drawImageCover cur cw ch 1 (-off) 0 1 c)
  else if style = "zoom" then
    let sc := 1 + p * (3 / 10)
    drawImageCover next cw ch 1 0 0 p
      (drawImageCover cur cw ch sc (cw / 2 * (1 - sc)) (ch / 2 * (1 - sc))
        (1 - p) c)
  else c

/-- A pure draw of one picture on a freshly cleared canvas: what a
non-transition tick paints (line 129). -/
def drawAlone (img : Picture) (cw ch : ℚ) (c : Canvas) : Canvas :=
  drawImageCover img cw ch 1 0 0 1 (clearBlack cw ch c)

/-- The full pixel content painted by one rendering tick of `renderFrame`
(lines 122-161): clear to black, then either a pure draw of the current
picture or the transition compositing branch. -/
def renderFramePixels (style : String) (pics : List Picture) (n d td t : ℕ)
    (cw ch : ℚ) (c : Canvas) : Canvas :=
  let currentImg := pics.getD (currentIndexOf d t) ⟨1, 1, fun _ _ => 0⟩
  let nextImg := pics.getD (nextIndexOf n d t) ⟨1, 1, fun _ _ => 0⟩
  match renderFrameAction n d td t with
  | .pureDraw _ => drawImageCover currentImg cw ch 1 0 0 1 (clearBlack cw ch c)
  | .transitionDraw _ _ p =>
    compositeFrame style currentImg nextImg p cw ch (clearBlack cw ch c)

/-- Equality of two canvases on every point of the output frame
(pixel-identity over `[0, cw) × [0, ch)`). -/
def FrameEq (cw ch : ℚ) (c₁ c₂ : Canvas) : Prop :=
  ∀ x y, 0 ≤ x → x < cw → 0 ≤ y → y < ch → c₁ x y = c₂ x y

/-! ## The recorder session: `createVideo`'s MediaRecorder handlers -/

/-- The session-level state touched by the recorder handlers: `isCreating`
(line 56), `videoUrl` (none while the string state is empty; `some chunks`
once `onstop` builds the blob from the gathered chunks, lines 79-84), and
the `chunks` array (line 72).  Chunks are modelled by their byte sizes. -/
structure SessionState where
  isCreating : Bool
  videoUrl : Option (List ℕ)
  chunks : List ℕ
deriving DecidableEq

/-- Events the MediaRecorder can deliver to the page. The source installs
handlers only for `dataavailable` (lines 73-77) and `stop` (lines 79-84);
an `error` event from the recorder has no handler. -/
inductive SinkEvent where
  | dataavailable (size : ℕ)
  | stop
  | error
deriving DecidableEq

/-- The page's reaction to one recorder event: `ondataavailable` appends
nonempty data, `onstop` unconditionally publishes the blob built from the
gathered chunks and clears `isCreating`, and `error` is ignored (no handler
is installed, so the state is unchanged). -/
def handleSinkEvent (st : SessionState) : SinkEvent → SessionState
  | .dataavailable size =>
    if 0 < size then { st with chunks := st.chunks ++ [size] } else st
  | .stop => { st with videoUrl := some st.chunks, isCreating := false }
  | .error => st

/-- Session state right after `createVideo` begins (lines 56-57):
`isCreating = true`, no video URL, no chunks. -/
def sessionStart : SessionState :=
  { isCreating := true, videoUrl := none, chunks := [] }

/-- Fold the recorder's event sequence through the page's handlers. -/
def runSession (evs : List SinkEvent) : SessionState :=
  evs.foldl handleSinkEvent sessionStart

/-! ## Theorems -/

/-- C1: for a running session sampling elapsed time `t` before the end of
the timeline, the scheduler computes `currentIndex = floor(t / d)`,
`nextIndex = (currentIndex + 1) mod n`, `timeInImage = t mod d`, draws the
current picture alone when `timeInImage < d - td`, and otherwise calls the
transition compositor with
`progress = (timeInImage - (d - td)) / td`. -/
theorem renderFrame_timeline_math (n d td t : ℕ) (hd : 0 < d)
    (ht : t < n * d) :
    currentIndexOf d t = t / d ∧
    nextIndexOf n d t = (t / d + 1) % n ∧
    timeInCurrentImage d t = t % d ∧
    renderFrameAction n d td t =
      (if ((t % d : ℕ) : ℚ) < (d : ℚ) - (td : ℚ) then
        FrameAction.pureDraw (t / d)
      else
        FrameAction.transitionDraw (t / d) ((t / d + 1) % n)
          ((((t % d : ℕ) : ℚ) - ((d : ℚ) - (td : ℚ))) / (td : ℚ))) :=
  ⟨rfl, rfl, rfl, rfl⟩

theorem renderFrame_timeline_math_witness :
    (0 < 3000 ∧ 2800 < 3 * 3000) ∧
    (currentIndexOf 3000 2800 = 2800 / 3000 ∧
    nextIndexOf 3 3000 2800 = (2800 / 3000 + 1) % 3 ∧
    timeInCurrentImage 3000 2800 = 2800 % 3000 ∧
    renderFrameAction 3 3000 500 2800 =
      (if ((2800 % 3000 : ℕ) : ℚ) < (3000 : ℚ) - (500 : ℚ) then
        FrameAction.pureDraw (2800 / 3000)
      else
        FrameAction.transitionDraw (2800 / 3000) ((2800 / 3000 + 1) % 3)
          ((((2800 % 3000 : ℕ) : ℚ) - ((3000 : ℚ) - (500 : ℚ))) /
            (500 : ℚ)))) :=
  ⟨⟨by decide, by decide⟩,
    renderFrame_timeline_math 3 3000 500 2800 (by decide) (by decide)⟩

/-- C2: `totalDuration` equals `numImages * imageDuration` exactly, and on
the first tick whose sampled time reaches it the loop stops the recorder
without emitting a frame for that tick, sends exactly one finalize signal,
and schedules no further ticks (later sample times are never consumed). -/
theorem totalDuration_finalize (n dur td t0 : ℕ) (pre post : List ℕ)
    (hpre : ∀ s ∈ pre, s < totalDuration n dur)
    (ht0 : totalDuration n dur ≤ t0) :
    totalDuration n dur = n * imageDuration dur ∧
    runTicks n dur td (pre ++ t0 :: post) =
      (pre.map (renderFrameAction n (imageDuration dur) td), 1) := by
  have key : ∀ l : List ℕ, (∀ s ∈ l, s < totalDuration n dur) →
      runTicks n dur td (l ++ t0 :: post) =
        (l.map (renderFrameAction n (imageDuration dur) td), 1) := by
    intro l
    induction l with
    | nil =>
      intro _
      simp [runTicks, tick, ht0]
    | cons s rest ih =>
      intro hp
      have hs : ¬ totalDuration n dur ≤ s :=
        Nat.not_le.mpr (hp s (by simp))
      have hr := ih (fun x hx => hp x (by simp [hx]))
      simp [runTicks, tick, hs, hr]
  exact ⟨by simp [totalDuration, imageDuration, Nat.mul_assoc], key pre hpre⟩

theorem totalDuration_finalize_witness :
    ((∀ s ∈ [0, 3000], s < totalDuration 2 3) ∧
      totalDuration 2 3 ≤ 6000) ∧
    (totalDuration 2 3 = 2 * imageDuration 3 ∧
    runTicks 2 3 500 ([0, 3000] ++ 6000 :: [9000]) =
      ([0, 3000].map (renderFrameAction 2 (imageDuration 3) 500), 1)) :=
  ⟨⟨by decide, by decide⟩,
    totalDuration_finalize 2 3 500 6000 [0, 3000] [9000] (by decide)
      (by decide)⟩

/-- C3: whenever the transition branch is taken — including for programs
with `imageDuration ≤ transitionDuration` — the progress value handed to
the compositing code already lies in `[0, 1]`, so it is a fixed point of
`clamp(·, 0, 1)` and the compositor is never invoked with an out-of-range
progress. -/
theorem transitionProgress_clamped (n d td t c nx : ℕ) (p : ℚ)
    (hd : 0 < d) (htd : 0 < td)
    (h : renderFrameAction n d td t = .transitionDraw c nx p) :
    0 ≤ p ∧ p ≤ 1 ∧ max 0 (min 1 p) = p := by
  unfold renderFrameAction at h
  split at h
  · exact absurd h (by simp)
  · rename_i hcond
    injection h with h1 h2 h3
    subst h3
    have htdQ : (0 : ℚ) < (td : ℚ) := by exact_mod_cast htd
    have hti : ((timeInCurrentImage d t : ℕ) : ℚ) < (d : ℚ) := by
      exact_mod_cast Nat.mod_lt t hd
    have hge : (d : ℚ) - (td : ℚ) ≤ ((timeInCurrentImage d t : ℕ) : ℚ) :=
      not_lt.mp hcond
    have h0 : 0 ≤ transitionProgress d td t := by
      unfold transitionProgress
      exact div_nonneg (by linarith) (le_of_lt htdQ)
    have h1' : transitionProgress d td t ≤ 1 := by
      unfold transitionProgress
      rw [div_le_one htdQ]
      linarith
    exact ⟨h0, h1', by rw [min_eq_right h1', max_eq_right h0]⟩

theorem transitionProgress_clamped_witness :
    (0 < 300 ∧ 0 < 500 ∧
      renderFrameAction 1 300 500 0 = .transitionDraw 0 0 (2 / 5)) ∧
    (0 ≤ (2 / 5 : ℚ) ∧ (2 / 5 : ℚ) ≤ 1 ∧
      max 0 (min 1 (2 / 5 : ℚ)) = 2 / 5) :=
  ⟨⟨by decide, by decide,
      by norm_num [renderFrameAction, timeInCurrentImage, currentIndexOf,
        nextIndexOf, transitionProgress]⟩,
    transitionProgress_clamped 1 300 500 0 0 0 (2 / 5) (by decide)
      (by decide)
      (by norm_num [renderFrameAction, timeInCurrentImage, currentIndexOf,
        nextIndexOf, transitionProgress])⟩

/-- C7: for a three-image program with `imageDuration = 3000`,
`transitionDuration = 500`: at `t = 2800` the tick blends images 0 and 1
with progress `3/5 = 0.6`; at `t = 3100` the time within image 1 is
`100 < 2500`, so image 1 is drawn alone with no blending. -/
theorem scenario_three_images :
    renderFrameAction 3 3000 500 2800 = .transitionDraw 0 1 (3 / 5) ∧
    renderFrameAction 3 3000 500 3100 = .pureDraw 1 ∧
    currentIndexOf 3000 2800 = 0 ∧ nextIndexOf 3 3000 2800 = 1 ∧
    currentIndexOf 3000 3100 = 1 ∧
    timeInCurrentImage 3000 3100 = 100 ∧
    timeInCurrentImage 3000 3100 < 2500 := by
  refine ⟨?_, ?_, by decide, by decide, by decide, by decide, by decide⟩ <;>
    norm_num [renderFrameAction, timeInCurrentImage, currentIndexOf,
      nextIndexOf, transitionProgress]

/-- C10: for every program with at least one image and a positive image
duration, and every sampled time before the end of the timeline, both
indices computed by the scheduler are within the bounds of the
loaded-pictures array. -/
theorem index_in_bounds (n d t : ℕ) (hn : 0 < n) (hd : 0 < d)
    (ht : t < n * d) :
    currentIndexOf d t < n ∧ nextIndexOf n d t < n := by
  refine ⟨?_, Nat.mod_lt _ hn⟩
  exact Nat.div_lt_of_lt_mul (by rwa [Nat.mul_comm] at ht)

theorem index_in_bounds_witness :
    (0 < 3 ∧ 0 < 3000 ∧ 8999 < 3 * 3000) ∧
    (currentIndexOf 3000 8999 < 3 ∧ nextIndexOf 3 3000 8999 < 3) :=
  ⟨⟨by decide, by decide, by decide⟩,
    index_in_bounds 3 3000 8999 (by decide) (by decide) (by decide)⟩

/-! Cover-fit geometry lemmas shared by the compositor theorems. -/

lemma coverRect_bounds (pw ph cw ch : ℚ) (hpw : 0 < pw) (hph : 0 < ph)
    (hcw : 0 < cw) (hch : 0 < ch) :
    cw ≤ (drawImageCoverRect pw ph cw ch).drawWidth ∧
    ch ≤ (drawImageCoverRect pw ph cw ch).drawHeight ∧
    (drawImageCoverRect pw ph cw ch).offsetX ≤ 0 ∧
    (drawImageCoverRect pw ph cw ch).offsetY ≤ 0 ∧
    cw ≤ (drawImageCoverRect pw ph cw ch).offsetX +
      (drawImageCoverRect pw ph cw ch).drawWidth ∧
    ch ≤ (drawImageCoverRect pw ph cw ch).offsetY +
      (drawImageCoverRect pw ph cw ch).drawHeight := by
  unfold drawImageCoverRect
  split
  · rename_i h
    rw [div_lt_div_iff hch hph] at h
    have hdw : cw ≤ pw * (ch / ph) := by
      rw [← mul_div_assoc, le_div_iff hph]
      linarith
    dsimp only
    refine ⟨hdw, le_refl ch, by linarith, le_refl 0, by linarith, by linarith⟩
  · rename_i h
    have h' : pw * ch ≤ cw * ph := by
      rw [not_lt, div_le_div_iff hph hch] at h
      linarith
    have hdh : ch ≤ ph * (cw / pw) := by
      rw [← mul_div_assoc, le_div_iff hpw]
      linarith
    dsimp only
    refine ⟨le_refl cw, hdh, le_refl 0, by linarith, by linarith, by linarith⟩

lemma coverRect_mem (pw ph cw ch : ℚ) (hpw : 0 < pw) (hph : 0 < ph)
    (hcw : 0 < cw) (hch : 0 < ch) (x y : ℚ) (hx0 : 0 ≤ x) (hx : x < cw)
    (hy0 : 0 ≤ y) (hy : y < ch) :
    (drawImageCoverRect pw ph cw ch).offsetX ≤ x ∧
    x < (drawImageCoverRect pw ph cw ch).offsetX +
      (drawImageCoverRect pw ph cw ch).drawWidth ∧
    (drawImageCoverRect pw ph cw ch).offsetY ≤ y ∧
    y < (drawImageCoverRect pw ph cw ch).offsetY +
      (drawImageCoverRect pw ph cw ch).drawHeight := by
  obtain ⟨-, -, h3, h4, h5, h6⟩ := coverRect_bounds pw ph cw ch hpw hph hcw hch
  exact ⟨le_trans h3 hx0, lt_of_lt_of_le hx h5, le_trans h4 hy0,
    lt_of_lt_of_le hy h6⟩

/-- C5: for positive picture and frame dimensions, the cover-fit rectangle
is at least as wide and at least as tall as the frame, so it is never
simultaneously narrower and shorter than the frame (full coverage, no
border). -/
theorem drawImageCoverRect_covers (pw ph cw ch : ℚ) (hpw : 0 < pw)
    (hph : 0 < ph) (hcw : 0 < cw) (hch : 0 < ch) :
    cw ≤ (drawImageCoverRect pw ph cw ch).drawWidth ∧
    ch ≤ (drawImageCoverRect pw ph cw ch).drawHeight ∧
    ¬((drawImageCoverRect pw ph cw ch).drawWidth < cw ∧
      (drawImageCoverRect pw ph cw ch).drawHeight < ch) := by
  obtain ⟨h1, h2, -, -, -, -⟩ := coverRect_bounds pw ph cw ch hpw hph hcw hch
  exact ⟨h1, h2, fun hc => absurd hc.1 (not_lt.mpr h1)⟩

theorem drawImageCoverRect_covers_witness :
    ((0 : ℚ) < 4 ∧ (0 : ℚ) < 3 ∧ (0 : ℚ) < 16 ∧ (0 : ℚ) < 9) ∧
    ((16 : ℚ) ≤ (drawImageCoverRect 4 3 16 9).drawWidth ∧
    (9 : ℚ) ≤ (drawImageCoverRect 4 3 16 9).drawHeight ∧
    ¬((drawImageCoverRect 4 3 16 9).drawWidth < 16 ∧
      (drawImageCoverRect 4 3 16 9).drawHeight < 9)) :=
  ⟨⟨by norm_num, by norm_num, by norm_num, by norm_num⟩,
    drawImageCoverRect_covers 4 3 16 9 (by norm_num) (by norm_num)
      (by norm_num) (by norm_num)⟩

/-- C6: for positive inputs the cover-fit computation is exactly the
case split of the specification: if the picture aspect exceeds the frame
aspect, scale to the frame height and center horizontally; otherwise scale
to the frame width and center vertically. -/
theorem drawImageCoverRect_formula (pw ph cw ch : ℚ) (hpw : 0 < pw)
    (hph : 0 < ph) (hcw : 0 < cw) (hch : 0 < ch) :
    drawImageCoverRect pw ph cw ch =
      if pw / ph > cw / ch then
        { drawWidth := pw * (ch / ph), drawHeight := ch,
          offsetX := (cw - pw * (ch / ph)) / 2, offsetY := 0 }
      else
        { drawWidth := cw, drawHeight := ph * (cw / pw),
          offsetX := 0, offsetY := (ch - ph * (cw / pw)) / 2 } := rfl

theorem drawImageCoverRect_formula_witness :
    ((0 : ℚ) < 4 ∧ (0 : ℚ) < 3 ∧ (0 : ℚ) < 16 ∧ (0 : ℚ) < 9) ∧
    drawImageCoverRect 4 3 16 9 =
      (if (4 : ℚ) / 3 > (16 : ℚ) / 9 then
        { drawWidth := 4 * ((9 : ℚ) / 3), drawHeight := 9,
          offsetX := (16 - 4 * ((9 : ℚ) / 3)) / 2, offsetY := 0 }
      else
        { drawWidth := 16, drawHeight := 3 * ((16 : ℚ) / 4),
          offsetX := 0, offsetY := (9 - 3 * ((16 : ℚ) / 4)) / 2 }) :=
  ⟨⟨by norm_num, by norm_num, by norm_num, by norm_num⟩,
    drawImageCoverRect_formula 4 3 16 9 (by norm_num) (by norm_num)
      (by norm_num) (by norm_num)⟩

/-! Pointwise facts about the drawing primitives. -/

lemma drawImageAt_alpha_zero (img : Picture) (ox oy dw dh s tx ty : ℚ)
    (c : Canvas) (x y : ℚ) :
    drawImageAt img ox oy dw dh s tx ty 0 c x y = c x y := by
  unfold drawImageAt
  split
  · ring
  · rfl

lemma drawImageCover_alpha_zero (img : Picture) (cw ch s tx ty : ℚ)
    (c : Canvas) (x y : ℚ) :
    drawImageCover img cw ch s tx ty 0 c x y = c x y := by
  unfold drawImageCover
  exact drawImageAt_alpha_zero img _ _ _ _ s tx ty c x y

lemma drawImageCover_full_apply (img : Picture) (cw ch : ℚ)
    (hpw : 0 < img.w) (hph : 0 < img.h) (hcw : 0 < cw) (hch : 0 < ch)
    (c : Canvas) (x y : ℚ) (hx0 : 0 ≤ x) (hx : x < cw) (hy0 : 0 ≤ y)
    (hy : y < ch) :
    drawImageCover img cw ch 1 0 0 1 c x y =
      img.color
        ((x - (drawImageCoverRect img.w img.h cw ch).offsetX) * img.w /
          (drawImageCoverRect img.w img.h cw ch).drawWidth)
        ((y - (drawImageCoverRect img.w img.h cw ch).offsetY) * img.h /
          (drawImageCoverRect img.w img.h cw ch).drawHeight) := by
  obtain ⟨m1, m2, m3, m4⟩ :=
    coverRect_mem img.w img.h cw ch hpw hph hcw hch x y hx0 hx hy0 hy
  unfold drawImageCover drawImageAt
  simp only [sub_zero, div_one]
  rw [if_pos ⟨m1, m2, m3, m4⟩]
  ring

lemma drawImageCover_full_base (img : Picture) (cw ch : ℚ)
    (hpw : 0 < img.w) (hph : 0 < img.h) (hcw : 0 < cw) (hch : 0 < ch)
    (c₁ c₂ : Canvas) (x y : ℚ) (hx0 : 0 ≤ x) (hx : x < cw) (hy0 : 0 ≤ y)
    (hy : y < ch) :
    drawImageCover img cw ch 1 0 0 1 c₁ x y =
      drawImageCover img cw ch 1 0 0 1 c₂ x y := by
  rw [drawImageCover_full_apply img cw ch hpw hph hcw hch c₁ x y hx0 hx hy0 hy,
    drawImageCover_full_apply img cw ch hpw hph hcw hch c₂ x y hx0 hx hy0 hy]

lemma compositeFrame_fade (cur next : Picture) (p cw ch : ℚ) (c : Canvas) :
    compositeFrame "fade" cur next p cw ch c =
      drawImageCover next cw ch 1 0 0 p
        (drawImageCover cur cw ch 1 0 0 1 c) := rfl

lemma compositeFrame_slide (cur next : Picture) (p cw ch : ℚ) (c : Canvas) :
    compositeFrame "slide" cur next p cw ch c =
      drawImageCover next cw ch 1 (cw - cw * p) 0 1
        (drawImageCover cur cw ch 1 (-(cw * p)) 0 1 c) := rfl

lemma compositeFrame_zoom (cur next : Picture) (p cw ch : ℚ) (c : Canvas) :
    compositeFrame "zoom" cur next p cw ch c =
      drawImageCover next cw ch 1 0 0 p
        (drawImageCover cur cw ch (1 + p * (3 / 10))
          (cw / 2 * (1 - (1 + p * (3 / 10))))
          (ch / 2 * (1 - (1 + p * (3 / 10)))) (1 - p) c) := rfl

lemma drawImageCover_next_offscreen (img : Picture) (cw ch : ℚ)
    (hasp : ¬(cw / ch < img.w / img.h)) (c : Canvas) (x y : ℚ)
    (hx : x < cw) :
    drawImageCover img cw ch 1 cw 0 1 c x y = c x y := by
  have hr : drawImageCoverRect img.w img.h cw ch =
      { drawWidth := cw, drawHeight := img.h * (cw / img.w), offsetX := 0,
        offsetY := (ch - img.h * (cw / img.w)) / 2 } := by
    unfold drawImageCoverRect
    rw [if_neg hasp]
  unfold drawImageCover drawImageAt
  rw [hr]
  rw [if_neg]
  rintro ⟨h1, -, -, -⟩
  rw [div_one] at h1
  simp only at h1
  linarith

/-- C4 (amended): at progress 1 every style composites pixel-identically to
drawing the next picture alone; at progress 0 `fade` and `zoom` composite
pixel-identically to drawing the current picture alone, and `slide` does so
when the next picture's aspect ratio is at most the frame's aspect ratio
(otherwise its cover-fit rectangle extends past the frame edge and leaks
into view at progress 0). -/
theorem compositeFrame_boundary (style : String)
    (hstyle : style = "fade" ∨ style = "slide" ∨ style = "zoom")
    (cur next : Picture) (cw ch : ℚ) (hcw : 0 < cw) (hch : 0 < ch)
    (hcurw : 0 < cur.w) (hcurh : 0 < cur.h) (hnw : 0 < next.w)
    (hnh : 0 < next.h) (c : Canvas) :
    FrameEq cw ch
      (compositeFrame style cur next 1 cw ch (clearBlack cw ch c))
      (drawAlone next cw ch c) ∧
    ((style = "fade" ∨ style = "zoom") →
      FrameEq cw ch
        (compositeFrame style cur next 0 cw ch (clearBlack cw ch c))
        (drawAlone cur cw ch c)) ∧
    (style = "slide" → next.w / next.h ≤ cw / ch →
      FrameEq cw ch
        (compositeFrame style cur next 0 cw ch (clearBlack cw ch c))
        (drawAlone cur cw ch c)) := by
  refine ⟨?_, ?_, ?_⟩
  · intro x y hx0 hx hy0 hy
    show _ = drawImageCover next cw ch 1 0 0 1 (clearBlack cw ch c) x y
    rcases hstyle with h | h | h <;> subst h
    · rw [compositeFrame_fade]
      exact drawImageCover_full_base next cw ch hnw hnh hcw hch _ _ x y hx0
        hx hy0 hy
    · rw [compositeFrame_slide]
      have e : cw - cw * 1 = 0 := by ring
      rw [e]
      exact drawImageCover_full_base next cw ch hnw hnh hcw hch _ _ x y hx0
        hx hy0 hy
    · rw [compositeFrame_zoom]
      exact drawImageCover_full_base next cw ch hnw hnh hcw hch _ _ x y hx0
        hx hy0 hy
  · rintro (h | h) <;> subst h <;> intro x y hx0 hx hy0 hy
    · rw [compositeFrame_fade, drawImageCover_alpha_zero]
      rfl
    · rw [compositeFrame_zoom, drawImageCover_alpha_zero]
      norm_num [drawAlone]
  · rintro h hasp
    subst h
    intro x y hx0 hx hy0 hy
    rw [compositeFrame_slide]
    have e1 : cw - cw * 0 = cw := by ring
    have e2 : -(cw * 0) = 0 := by ring
    rw [e1, e2]
    rw [drawImageCover_next_offscreen next cw ch (not_lt.mpr hasp) _ x y hx]
    rfl

theorem compositeFrame_boundary_witness :
    (("fade" : String) = "fade" ∨ ("fade" : String) = "slide" ∨
      ("fade" : String) = "zoom") ∧
    ((0 : ℚ) < 16 ∧ (0 : ℚ) < 9 ∧ (0 : ℚ) < 4 ∧ (0 : ℚ) < 3) ∧
    (FrameEq 16 9
      (compositeFrame "fade" (Picture.mk 4 3 fun _ _ => 0)
        (Picture.mk 4 3 fun _ _ => 1) 1 16 9
        (clearBlack 16 9 fun _ _ => 0))
      (drawAlone (Picture.mk 4 3 fun _ _ => 1) 16 9 fun _ _ => 0) ∧
    (("fade" : String) = "fade" ∨ ("fade" : String) = "zoom" →
      FrameEq 16 9
        (compositeFrame "fade" (Picture.mk 4 3 fun _ _ => 0)
          (Picture.mk 4 3 fun _ _ => 1) 0 16 9
          (clearBlack 16 9 fun _ _ => 0))
        (drawAlone (Picture.mk 4 3 fun _ _ => 0) 16 9 fun _ _ => 0)) ∧
    (("fade" : String) = "slide" →
      (Picture.mk 4 3 fun _ _ => 1).w / (Picture.mk 4 3 fun _ _ => 1).h ≤
        16 / 9 →
      FrameEq 16 9
        (compositeFrame "fade" (Picture.mk 4 3 fun _ _ => 0)
          (Picture.mk 4 3 fun _ _ => 1) 0 16 9
          (clearBlack 16 9 fun _ _ => 0))
        (drawAlone (Picture.mk 4 3 fun _ _ => 0) 16 9 fun _ _ => 0))) :=
  ⟨Or.inl rfl, ⟨by norm_num, by norm_num, by norm_num, by norm_num⟩,
    compositeFrame_boundary "fade" (Or.inl rfl)
      (Picture.mk 4 3 fun _ _ => 0) (Picture.mk 4 3 fun _ _ => 1) 16 9
      (by norm_num) (by norm_num) (by norm_num) (by norm_num) (by norm_num)
      (by norm_num) (fun _ _ => 0)⟩

/-- C4 counterexample: with `slide` at progress 0 and a next picture whose
aspect ratio (4) exceeds the frame's (16/9), the composited frame is not
pixel-identical to drawing the current picture alone — at device pixel
(1000, 500) the next picture's color 1 shows instead of the current
picture's color 0. -/
theorem slide_progress_zero_not_current :
    ¬ FrameEq 1920 1080
      (compositeFrame "slide" (Picture.mk 1920 1080 fun _ _ => 0)
        (Picture.mk 400 100 fun _ _ => 1) 0 1920 1080
        (clearBlack 1920 1080 fun _ _ => 0))
      (drawAlone (Picture.mk 1920 1080 fun _ _ => 0) 1920 1080
        fun _ _ => 0) := by
  intro h
  have hp := h 1000 500 (by norm_num) (by norm_num) (by norm_num)
    (by norm_num)
  rw [compositeFrame_slide] at hp
  norm_num [drawAlone, drawImageCover, drawImageAt, drawImageCoverRect,
    clearBlack] at hp

/-- C9: a transition-window tick with a style outside
`{fade, slide, zoom}` leaves the frame entirely black: the clear to black
runs, no compositing branch matches, and the tick still completes
normally. -/
theorem unknownStyle_blackFrame (style : String) (h1 : style ≠ "fade")
    (h2 : style ≠ "slide") (h3 : style ≠ "zoom") (pics : List Picture)
    (n d td t : ℕ) (cw ch : ℚ) (c : Canvas)
    (htr : ¬((timeInCurrentImage d t : ℚ) < (d : ℚ) - (td : ℚ))) :
    FrameEq cw ch (renderFramePixels style pics n d td t cw ch c)
      (fun _ _ => 0) := by
  intro x y hx0 hx hy0 hy
  show renderFramePixels style pics n d td t cw ch c x y = 0
  have ha : renderFrameAction n d td t =
      .transitionDraw (currentIndexOf d t) (nextIndexOf n d t)
        (transitionProgress d td t) := by
    unfold renderFrameAction
    rw [if_neg htr]
  simp only [renderFramePixels, ha]
  unfold compositeFrame
  rw [if_neg h1, if_neg h2, if_neg h3]
  unfold clearBlack
  rw [if_pos ⟨hx0, hx, hy0, hy⟩]

theorem unknownStyle_blackFrame_witness :
    (("wipe" : String) ≠ "fade" ∧ ("wipe" : String) ≠ "slide" ∧
      ("wipe" : String) ≠ "zoom" ∧
      ¬((timeInCurrentImage 300 0 : ℚ) < (300 : ℚ) - (500 : ℚ))) ∧
    FrameEq 16 9
      (renderFramePixels "wipe" [] 1 300 500 0 16 9 fun _ _ => 5)
      (fun _ _ => 0) :=
  ⟨⟨by decide, by decide, by decide,
      by norm_num [timeInCurrentImage]⟩,
    unknownStyle_blackFrame "wipe" (by decide) (by decide) (by decide) []
      1 300 500 0 16 9 (fun _ _ => 5)
      (by norm_num [timeInCurrentImage])⟩

/-- C8 (code evaluation at the failing input): the page installs no error
handler on the MediaRecorder, so a sink `error` event leaves the session
state unchanged — there is no failed state at all — and the subsequent
`stop` event completes the session as if successful, publishing an
artifact built from zero chunks. -/
theorem sinkFailure_silently_completes :
    handleSinkEvent sessionStart .error = sessionStart ∧
    runSession [.error, .stop] =
      { isCreating := false, videoUrl := some [], chunks := [] } :=
  ⟨rfl, rfl⟩
